import Mathlib

set_option maxHeartbeats 1000000

/-!
Shallow embedding of `src/schemaHandler.js` (serverless-openapi-documenter).

JavaScript values are modelled by the mutual inductive family `Js` /
`JsList` / `JsFields` (numbers as `Int`; the claims never involve
non-integral numbers).  JS exceptions are values: `JsThrow` distinguishes
`Error` instances (with `message` and an optional `errors` sub-error list,
the only fields the code reads), engine `TypeError`s raised by illegal
property accesses, and arbitrary non-`Error` thrown values.

The external collaborators (`$RefParser.bundle`, `$RefParser.dereference`,
`SchemaConvertor.convert`) are parameters, gathered in `Collab`.  The one
unbounded recursion of the source (`__dereferenceSchema`'s recovery pass) is
modelled with explicit fuel; fuel exhaustion yields a distinguished error
that stands for non-termination and is unreachable under the hypotheses of
the theorems below.
-/

mutual

/-- A JavaScript value. -/
inductive Js where
  | undefined
  | null
  | bool (b : Bool)
  | num (n : Int)
  | str (s : String)
  | arr (xs : JsList)
  | obj (fs : JsFields)
deriving Repr, DecidableEq

/-- The elements of a JS array. -/
inductive JsList where
  | nil
  | cons (head : Js) (tail : JsList)
deriving Repr, DecidableEq

/-- The own enumerable fields of a JS object, in insertion order, with
unique keys. -/
inductive JsFields where
  | nil
  | cons (key : String) (val : Js) (tail : JsFields)
deriving Repr, DecidableEq

end

/-- Build a `JsList` from a Lean list. -/
def JsList.ofList : List Js → JsList
  | [] => .nil
  | x :: xs => .cons x (JsList.ofList xs)

/-- The elements of a `JsList` as a Lean list. -/
def JsList.toList : JsList → List Js
  | .nil => []
  | .cons x xs => x :: JsList.toList xs

/-- Build `JsFields` from a Lean association list. -/
def JsFields.ofList : List (String × Js) → JsFields
  | [] => .nil
  | (k, v) :: fs => .cons k v (JsFields.ofList fs)

/-- The fields as a Lean association list (insertion order). -/
def JsFields.toList : JsFields → List (String × Js)
  | .nil => []
  | .cons k v fs => (k, v) :: JsFields.toList fs

/-- Array literal. -/
def Js.mkArr (xs : List Js) : Js := .arr (JsList.ofList xs)

/-- Object literal. -/
def Js.mkObj (fs : List (String × Js)) : Js := .obj (JsFields.ofList fs)

/-- JS truthiness of a value (`Boolean(v)`). -/
def Js.truthy : Js → Bool
  | .undefined => false
  | .null => false
  | .bool b => b
  | .num n => n != 0
  | .str s => s ≠ ""
  | .arr _ => true
  | .obj _ => true

/-- Property lookup in a field list (keys are unique, first match wins). -/
def jsLookup : JsFields → String → Option Js
  | .nil, _ => none
  | .cons k' v fs, k => if k' = k then some v else jsLookup fs k

/-- Property write: an existing key keeps its position and gets the new
value, a new key is appended (JS insertion-order semantics). -/
def setKey : JsFields → String → Js → JsFields
  | .nil, k, v => .cons k v .nil
  | .cons k' w fs, k, v =>
    if k' = k then .cons k' v fs else .cons k' w (setKey fs k v)

/-- `delete o[k]`. -/
def removeKey : JsFields → String → JsFields
  | .nil, _ => .nil
  | .cons k' v fs, k =>
    if k' = k then removeKey fs k else .cons k' v (removeKey fs k)

/-- The keys of a field list, in order. -/
def JsFields.keys : JsFields → List String
  | .nil => []
  | .cons k _ fs => k :: JsFields.keys fs

/-- Total order on characters (by code point), for the key sort of the
deep-equality normal form. -/
def charLe (a b : Char) : Bool := a.toNat ≤ b.toNat

/-- Lexicographic order on character lists. -/
def lexLe : List Char → List Char → Bool
  | [], _ => true
  | _ :: _, [] => false
  | a :: as, b :: bs =>
    if a.toNat < b.toNat then true
    else if b.toNat < a.toNat then false
    else lexLe as bs

/-- Lexicographic order on strings (any total order works here; it only
canonicalises object key order for `isEqual`). -/
def strLe (a b : String) : Bool := lexLe a.data b.data

/-- Sorted insertion of a field by key (helper for the deep-equality normal
form). -/
def insertField (k : String) (v : Js) : JsFields → JsFields
  | .nil => .cons k v .nil
  | .cons k' v' fs =>
    if strLe k k' then .cons k v (.cons k' v' fs)
    else .cons k' v' (insertField k v fs)

/-- Insertion sort of fields by key (helper for the deep-equality normal
form). -/
def sortFields : JsFields → JsFields
  | .nil => .nil
  | .cons k v fs => insertField k v (sortFields fs)

mutual

/-- Key-order normal form of a JS value: object fields sorted by key at
every level (arrays stay ordered). -/
def Js.norm : Js → Js
  | .undefined => .undefined
  | .null => .null
  | .bool b => .bool b
  | .num n => .num n
  | .str s => .str s
  | .arr xs => .arr (JsList.norm xs)
  | .obj fs => .obj (sortFields (JsFields.norm fs))

/-- Normalise every element. -/
def JsList.norm : JsList → JsList
  | .nil => .nil
  | .cons x xs => .cons (Js.norm x) (JsList.norm xs)

/-- Normalise every field value. -/
def JsFields.norm : JsFields → JsFields
  | .nil => .nil
  | .cons k v fs => .cons k (Js.norm v) (JsFields.norm fs)

end

/-- `isDeepStrictEqual` of node's `util` module, as used by the source
(`isEqual`): deep structural equality, insensitive to object key order
(arrays stay ordered); modelled as syntactic equality of key-order normal
forms. -/
def isEqual (a b : Js) : Bool := a.norm == b.norm

/-- Substring occurrence on character lists. -/
def containsSub (pat : List Char) : List Char → Bool
  | [] => pat.isPrefixOf []
  | c :: cs => pat.isPrefixOf (c :: cs) || containsSub pat cs

/-- `String.prototype.includes`. -/
def containsSubstr (s pat : String) : Bool := containsSub pat.data s.data

/-- `String.prototype.startsWith`. -/
def startsWithStr (s pre : String) : Bool := pre.data.isPrefixOf s.data

/-- Canonical decimal parse of a property key (for array index access). -/
def digitsToNat? : List Char → Option Nat
  | [] => none
  | cs =>
    if cs.all (fun c => c.isDigit) then
      some (cs.foldl (fun acc c => acc * 10 + (c.toNat - 48)) 0)
    else none

/-- Array index denoted by a string property key, if any. -/
def strIndex? (k : String) : Option Nat := digitsToNat? k.data

/-- JSON string escaping for `JSON.stringify` (the escapes the modelled
inputs can contain; other control characters do not occur in them). -/
def escapeJsonChar (c : Char) : String :=
  if c = '"' then "\\\""
  else if c = '\\' then "\\\\"
  else if c = '\n' then "\\n"
  else if c = '\t' then "\\t"
  else if c = '\r' then "\\r"
  else String.singleton c

/-- Quote a string as a JSON string literal. -/
def quoteJson (s : String) : String :=
  "\"" ++ String.join (s.data.map escapeJsonChar) ++ "\""

mutual

/-- JS string coercion `String(v)` as used in template literals and property
keys: `undefined`/`null` spell out, arrays join their elements with commas
(nullish elements as empty), plain objects print `[object Object]`. -/
def Js.toStr : Js → String
  | .undefined => "undefined"
  | .null => "null"
  | .bool b => if b then "true" else "false"
  | .num n => toString n
  | .str s => s
  | .arr xs => String.intercalate "," (JsList.toStrElems xs)
  | .obj _ => "[object Object]"

/-- Element strings for the array-join coercion (nullish elements print as
the empty string). -/
def JsList.toStrElems : JsList → List String
  | .nil => []
  | .cons x xs =>
    (match x with
     | .undefined => ""
     | .null => ""
     | v => Js.toStr v) :: JsList.toStrElems xs

end

mutual

/-- `JSON.stringify(v)`: `none` stands for the JS result `undefined`
(top-level `undefined`); inside arrays such holes print as `null`, inside
objects the field is dropped. -/
def jsStringify : Js → Option String
  | .undefined => none
  | .null => some "null"
  | .bool b => some (if b then "true" else "false")
  | .num n => some (toString n)
  | .str s => some (quoteJson s)
  | .arr xs => some ("[" ++ String.intercalate "," (stringifyElems xs) ++ "]")
  | .obj fs => some ("\x7b" ++ String.intercalate "," (stringifyFields fs) ++ "\x7d")

/-- Array element serialisation (holes print as `null`). -/
def stringifyElems : JsList → List String
  | .nil => []
  | .cons x xs => (jsStringify x).getD "null" :: stringifyElems xs

/-- Object field serialisation (fields with an `undefined`-serialising value
are dropped). -/
def stringifyFields : JsFields → List String
  | .nil => []
  | .cons k v fs =>
    match jsStringify v with
    | some vs => (quoteJson k ++ ":" ++ vs) :: stringifyFields fs
    | none => stringifyFields fs

end

/-- `JSON.stringify(v)` coerced as it appears inside a template literal
(a top-level `undefined` result prints as `undefined`). -/
def stringifyT (v : Js) : String := (jsStringify v).getD "undefined"

/-- A sub-error carried by an `Error` instance's `errors` list (the code
only reads its `message`). -/
structure SubErr where
  message : String
deriving Repr, DecidableEq

/-- An `Error` instance: `message` plus the optional `errors` sub-error
list (the only fields the modelled code reads). -/
structure ErrObj where
  message : String
  errors : Option (List SubErr)
deriving Repr, DecidableEq

/-- A value thrown by the modelled JS code or rejected by a collaborator
promise: an `Error` instance, an engine `TypeError` (also an `Error`
instance) from an illegal property access or iteration, or an arbitrary
thrown non-`Error` value. -/
inductive JsThrow where
  | err (e : ErrObj)
  | typeErr (detail : String)
  | val (v : Js)
deriving Repr, DecidableEq

deriving instance DecidableEq for Except

/-- `x instanceof Error` for a thrown value (`TypeError` extends `Error`). -/
def JsThrow.instanceofError : JsThrow → Bool
  | .err _ => true
  | .typeErr _ => true
  | .val _ => false

/-- Element lookup in a `JsList`. -/
def JsList.get? : JsList → Nat → Option Js
  | .nil, _ => none
  | .cons x _, 0 => some x
  | .cons _ xs, n + 1 => JsList.get? xs n

/-- Nullish-safe property read `base?.[k]` / `base?.k`: `undefined` on a
nullish base; objects look the key up, arrays index by decimal string,
strings index to one-character strings, other primitives have no own
properties (none that the modelled code reads). -/
def jsGet (v : Js) (k : String) : Js :=
  match v with
  | .undefined => .undefined
  | .null => .undefined
  | .obj fs => (jsLookup fs k).getD .undefined
  | .arr xs =>
    match strIndex? k with
    | some i => (JsList.get? xs i).getD .undefined
    | none => .undefined
  | .str s =>
    match strIndex? k with
    | some i =>
      match s.data.get? i with
      | some c => .str (String.singleton c)
      | none => .undefined
    | none => .undefined
  | _ => .undefined

/-- Plain property read `base[k]` / `base.k`: a `TypeError` on a nullish
base, otherwise as `jsGet`. -/
def jsGetE (v : Js) (k : String) : Except JsThrow Js :=
  match v with
  | .undefined =>
    .error (.typeErr ("Cannot read properties of undefined (reading '" ++ k ++ "')"))
  | .null =>
    .error (.typeErr ("Cannot read properties of null (reading '" ++ k ++ "')"))
  | v => .ok (jsGet v k)

/-- `Object.keys(v)`: `TypeError` on nullish input, own enumerable keys of
objects, index keys of arrays and strings, nothing for other primitives. -/
def jsKeys : Js → Except JsThrow (List String)
  | .undefined => .error (.typeErr "Cannot convert undefined or null to object")
  | .null => .error (.typeErr "Cannot convert undefined or null to object")
  | .obj fs => .ok fs.keys
  | .arr xs => .ok ((List.range xs.toList.length).map toString)
  | .str s => .ok ((List.range s.data.length).map toString)
  | _ => .ok []

/-- `Object.entries(v)`, with the same domain as `jsKeys`. -/
def jsEntries : Js → Except JsThrow (List (String × Js))
  | .undefined => .error (.typeErr "Cannot convert undefined or null to object")
  | .null => .error (.typeErr "Cannot convert undefined or null to object")
  | .obj fs => .ok fs.toList
  | .arr xs => .ok (xs.toList.enum.map fun p => (toString p.1, p.2))
  | .str s => .ok (s.data.enum.map fun p => (toString p.1, .str (String.singleton p.2)))
  | _ => .ok []

/-- Object spread `{...v}`: fields of objects, index entries of arrays and
strings, nothing for nullish values and other primitives. -/
def jsSpread : Js → List (String × Js)
  | .obj fs => fs.toList
  | .arr xs => xs.toList.enum.map fun p => (toString p.1, p.2)
  | .str s => s.data.enum.map fun p => (toString p.1, .str (String.singleton p.2))
  | _ => []

/-- `Object.assign(target, {fields})` for an object target (the modelled
code only ever assigns into objects; other targets are returned
unchanged). -/
def assignFields (target : Js) (fs : List (String × Js)) : Js :=
  match target with
  | .obj tfs => .obj (fs.foldl (fun acc p => setKey acc p.1 p.2) tfs)
  | t => t

/-- Strict-mode property write `target[k] = v` for an object target (the
modelled code only ever writes into objects; other targets are returned
unchanged). -/
def setField : Js → String → Js → Js
  | .obj fs, k, v => .obj (setKey fs k v)
  | t, _, _ => t

/-- `delete target[k]` for an object target. -/
def removeField : Js → String → Js
  | .obj fs, k => .obj (removeKey fs k)
  | v, _ => v

/-- `x === undefined`. -/
def Js.isUndefined : Js → Bool
  | .undefined => true
  | _ => false

/-- Strict equality `v === s` of a JS value with a string (as in the
`schemaName === modelName` comparison): true only for the same string
primitive. -/
def strictEqStr (v : Js) (s : String) : Bool :=
  match v with
  | .str t => t = s
  | _ => false

/-- The external collaborators of the engine: `$RefParser.bundle`,
`$RefParser.dereference` (both may reject, with any JS value) and
`SchemaConvertor.convert` (synchronous, may throw).  The ref-parser options
object is opaque to the engine and omitted. -/
structure Collab where
  bundle : Js → Except JsThrow Js
  dereference : Js → Except JsThrow Js
  convert : Js → Js → Except JsThrow Js

/-- The handler state the methods mutate: the shared OpenAPI document (a JS
object) and the `modelReferences` name-to-pointer cache. -/
structure SHState where
  openAPI : Js
  modelReferences : List (String × String)
deriving Repr, DecidableEq

/-- Cache read `this.modelReferences[name]`. -/
def lookupStr : List (String × String) → String → Option String
  | [], _ => none
  | (k', v) :: rest, k => if k' = k then some v else lookupStr rest k

/-- Cache write `this.modelReferences[name] = ref`. -/
def setKeyStr : List (String × String) → String → String → List (String × String)
  | [], k, v => [(k, v)]
  | (k', w) :: rest, k, v =>
    if k' = k then (k', v) :: rest else (k', w) :: setKeyStr rest k v

/-- `__addToComponents`: insert `{name: schema}` into
`this.openAPI.components[type]`, creating the missing containers; the final
`Object.assign` overwrites an existing same-name entry. -/
def addToComponents (openAPI : Js) (ty : String) (schema : Js) (name : String) : Js :=
  let schemaObj : Js := Js.mkObj [(name, schema)]
  if (jsGet openAPI "components").truthy then
    if (jsGet (jsGet openAPI "components") ty).truthy then
      setField openAPI "components"
        (setField (jsGet openAPI "components") ty
          (assignFields (jsGet (jsGet openAPI "components") ty) [(name, schema)]))
    else
      setField openAPI "components"
        (assignFields (jsGet openAPI "components") [(ty, schemaObj)])
  else
    assignFields openAPI [("components", Js.mkObj [(ty, schemaObj)])]

/-- `__existsInComponents`: `Boolean(this.openAPI?.components?.schemas?.[name])`. -/
def existsInComponents (openAPI : Js) (name : String) : Bool :=
  (jsGet (jsGet (jsGet openAPI "components") "schemas") name).truthy

/-- `__isTheSameSchema`: deep-compare the candidate against
`this.openAPI.components.schemas[otherSchemaName]` (the source only calls
this when the entry exists, so its non-optional accesses cannot throw). -/
def isTheSameSchema (openAPI : Js) (schema : Js) (otherSchemaName : String) : Bool :=
  isEqual schema (jsGet (jsGet (jsGet openAPI "components") "schemas") otherSchemaName)

/-- The malformed-dereference marker test `deReferencedSchema?.$ref === "#"`. -/
def rootSelfRef (d : Js) : Bool :=
  match jsGet d "$ref" with
  | .str s => s = "#"
  | _ => false

/-- Stands for non-termination of the source's unbounded recovery
recursion; unreachable under the hypotheses of the theorems below. -/
def fuelError : JsThrow := .err ⟨"__fuel_exhausted__", none⟩

/-- Split a character list at a separator (as `String.prototype.split`). -/
def splitSeg (sep : Char) : List Char → List Char → List String
  | [], acc => [String.mk acc.reverse]
  | c :: cs, acc =>
    if c = sep then String.mk acc.reverse :: splitSeg sep cs []
    else splitSeg sep cs (c :: acc)

/-- `path[path.length - 1]` of `oldRef.split("/")`. -/
def lastSegment (s : String) : String :=
  ((splitSeg '/' s.data []).getLast?).getD ""

/-- `__dereferenceSchema` with explicit fuel, returning the result together
with the number of recovery passes taken: bundle, dereference, and on a
root `$ref === "#"` merge the `definitions` fragment named by the last
segment of the bundled document's top-level `$ref`, delete the dangling
`$ref`, and re-run the whole algorithm on the patched document. -/
def dereferenceSchema (C : Collab) : Nat → Js → Except JsThrow (Js × Nat)
  | 0, _ => .error fuelError
  | fuel + 1, schema =>
    match C.bundle schema with
    | .error t => .error t
    | .ok bundledSchema =>
      match C.dereference bundledSchema with
      | .error t => .error t
      | .ok d =>
        if rootSelfRef d then
          match jsGetE bundledSchema "$ref" with
          | .error t => .error t
          | .ok (.str oldRef) =>
            let pathTitle := lastSegment oldRef
            match jsGetE (jsGet d "definitions") pathTitle with
            | .error t => .error t
            | .ok referencedProperties =>
              let patched :=
                removeField (assignFields d (jsSpread referencedProperties)) "$ref"
              match dereferenceSchema C fuel patched with
              | .error t => .error t
              | .ok rp => .ok (rp.1, rp.2 + 1)
          | .ok _ => .error (.typeErr "oldRef.split is not a function")
        else
          .ok (d, 0)

/-- The HTTP-failure marker substring checked by `__HTTPError`. -/
def httpMarker : String := "HTTP ERROR"

/-- The exact message `__checkForMissingPathAndThrow` matches. -/
def missingPathMsg : String := "Expected a file path, URL, or object. Got undefined"

/-- The wrapped message `__HTTPError` throws (exact source template). -/
def httpErrorMsg (model : Js) (errMsg : String) : String :=
  "There was an error dereferencing " ++ (jsGet model "name").toStr ++
  " schema.  \n\n dereferencing message: " ++ errMsg ++
  " \n\n Model received: " ++ stringifyT model

/-- `__HTTPError` applied to one `message` value (a `Js` because in the
non-`Error`-carrier case the message need not be a string; a non-string
message makes `.includes` raise a `TypeError`). -/
def httpErrorCheck (msgVal : Js) (model : Js) : Except JsThrow Unit :=
  match msgVal with
  | .str m =>
    if containsSubstr m httpMarker then .error (.err ⟨httpErrorMsg model m, none⟩)
    else .ok ()
  | _ => .error (.typeErr "error.message.includes is not a function")

/-- `__checkForHTTPErrorsAndThrow`: when the thrown value's `errors` field
is truthy, run `__HTTPError` over the sub-errors (the main message is then
never checked); otherwise over the value itself. -/
def checkForHTTPErrorsAndThrow (t : JsThrow) (model : Js) : Except JsThrow Unit :=
  match t with
  | .err e =>
    match e.errors with
    | some subs => subs.forM fun s => httpErrorCheck (.str s.message) model
    | none => httpErrorCheck (.str e.message) model
  | .typeErr d => httpErrorCheck (.str d) model
  | .val v =>
    match jsGetE v "errors" with
    | .error t' => .error t'
    | .ok errs =>
      if errs.truthy then
        match errs with
        | .arr l => l.toList.forM fun s => do
            let m ← jsGetE s "message"
            httpErrorCheck m model
        | .str s => (s.data.map (fun c => Js.str (String.singleton c))).forM fun cj => do
            let m ← jsGetE cj "message"
            httpErrorCheck m model
        | _ => .error (.typeErr "error.errors is not iterable")
      else httpErrorCheck (jsGet v "message") model

/-- The `message` field of a thrown value (for the exact-match check; a
nullish non-`Error` carrier cannot reach this check, the HTTP check before
it already raised a `TypeError`). -/
def JsThrow.messageVal : JsThrow → Js
  | .err e => .str e.message
  | .typeErr d => .str d
  | .val v => jsGet v "message"

/-- `__checkForMissingPathAndThrow`: rethrow the original error iff its
message is exactly `missingPathMsg`. -/
def checkForMissingPathAndThrow (t : JsThrow) : Except JsThrow Unit :=
  match t.messageVal with
  | .str m => if m = missingPathMsg then .error t else .ok ()
  | _ => .ok ()

/-- The catch handler of `__dereferenceAndConvert`'s dereference step:
HTTP-marker classification, then missing-path classification. -/
def classifyResolutionError (t : JsThrow) (model : Js) : Except JsThrow Unit :=
  match checkForHTTPErrorsAndThrow t model with
  | .error t' => .error t'
  | .ok _ => checkForMissingPathAndThrow t

/-- The vendor-extension overlay loop of `__dereferenceAndConvert`: for
every `x-`-prefixed key of the model, when `convertedSchemas.schemas?.[name]`
is truthy the key/value is written onto that entry (the converted value is
re-read on every iteration, as in the source).  A named `x-` property on an
array entry is outside this Js model (arrays here hold only index entries)
and leaves the value unchanged; the modelled code never hits that case. -/
def overlayX (nameKey : String) : Js → List (String × Js) → Except JsThrow Js
  | cv, [] => .ok cv
  | cv, (k, v) :: rest =>
    if startsWithStr k "x-" then
      match jsGetE cv "schemas" with
      | .error t => .error t
      | .ok schemasVal =>
        let entry := jsGet schemasVal nameKey
        if entry.truthy then
          match entry with
          | .obj efs =>
            overlayX nameKey
              (setField cv "schemas"
                (setField schemasVal nameKey (.obj (setKey efs k v)))) rest
          | .arr _ => overlayX nameKey cv rest
          | _ => .error (.typeErr ("Cannot create property '" ++ k ++ "'"))
        else overlayX nameKey cv rest
    else overlayX nameKey cv rest

/-- The conversion tail of `__dereferenceAndConvert`: invoke the converter
on the (possibly fallback) document, then overlay the model's `x-` keys. -/
def convertAndOverlay (C : Collab) (doc : Js) (name : Js) (model : Js) :
    Except JsThrow Js :=
  match C.convert doc name with
  | .error t => .error t
  | .ok cv =>
    match jsEntries model with
    | .error t => .error t
    | .ok ments => overlayX name.toStr cv ments

/-- `__dereferenceAndConvert`: dereference (classifying a failure, with
fallback to the original document when the failure is recoverable), then
convert and overlay. -/
def dereferenceAndConvert (C : Collab) (fuel : Nat) (schema : Js) (name : Js)
    (model : Js) : Except JsThrow Js :=
  match dereferenceSchema C fuel schema with
  | .ok dp => convertAndOverlay C dp.1 name model
  | .error t =>
    match classifyResolutionError t model with
    | .error t' => .error t'
    | .ok _ => convertAndOverlay C schema name model

/-- The exact error message `addModelsToOpenAPI` throws when the converted
output's `schemas` field has the wrong shape (misspelling as in the
source). -/
def convertShapeMsg (model cv : Js) : String :=
  "There was an error converting the " ++ (jsGet model "name").toStr ++
  " schema. Model received looks like: \n\n" ++ stringifyT model ++
  ".  The convereted schema looks like \n\n" ++ stringifyT cv

/-- The per-model tail of `addModelsToOpenAPI`: the `schemas`-shape check
(`typeof x === "object" && !Array.isArray(x) && x !== null`), the
`modelReferences` write for every entry whose name strictly equals the
model's name, and the unconditional `__addToComponents` insert of every
entry. -/
def handleConverted (st : SHState) (modelName : Js) (model : Js) (cv : Js) :
    Except JsThrow SHState :=
  match jsGetE cv "schemas" with
  | .error t => .error t
  | .ok (.obj entries) =>
    .ok (entries.toList.foldl (fun acc p =>
      let ref := "#/components/schemas/" ++ modelName.toStr
      let acc1 :=
        if strictEqStr modelName p.1 then
          { acc with modelReferences := setKeyStr acc.modelReferences p.1 ref }
        else acc
      { acc1 with openAPI := addToComponents acc1.openAPI "schemas" p.2 p.1 }) st)
  | .ok _ => .error (.err ⟨convertShapeMsg model cv, none⟩)

/-- One iteration of `addModelsToOpenAPI`'s model loop: dereference-and-
convert with the catch that rethrows `Error` instances and substitutes any
other rejection value as the converted result, then `handleConverted`. -/
def processOneModel (C : Collab) (fuel : Nat) (st : SHState) (model : Js) :
    Except JsThrow SHState :=
  match jsGetE model "name" with
  | .error t => .error t
  | .ok modelName =>
    match jsGetE model "schema" with
    | .error t => .error t
    | .ok modelSchema =>
      match dereferenceAndConvert C fuel modelSchema modelName model with
      | .ok cv => handleConverted st modelName model cv
      | .error (.val v) => handleConverted st modelName model v
      | .error t => .error t

/-- `addModelsToOpenAPI`: sequential processing of the model list; a thrown
error aborts the batch (the state already mutated by earlier models
persists, as the source mutates `this` in place). -/
def addModelsToOpenAPI (C : Collab) (fuel : Nat) :
    SHState → List Js → SHState × Option JsThrow
  | st, [] => (st, none)
  | st, m :: ms =>
    match processOneModel C fuel st m with
    | .ok st' => addModelsToOpenAPI C fuel st' ms
    | .error t => (st, some t)

/-- The merge loop of `createSchema` over the converted `(name, value)`
entries, threading the OpenAPI document and `finalName`; `u` is the value
the (at most one) `uuid()` call of the run returns. -/
def mergeEntries (u originalName : String) :
    Js → String → List (String × Js) → Js × String
  | o, finalName, [] => (o, finalName)
  | o, finalName, (schemaName, schemaValue) :: rest =>
    if existsInComponents o schemaName then
      if isTheSameSchema o schemaValue schemaName = false then
        if schemaName = originalName then
          mergeEntries u originalName
            (addToComponents o "schemas" schemaValue (schemaName ++ "-" ++ u))
            (schemaName ++ "-" ++ u) rest
        else
          mergeEntries u originalName
            (addToComponents o "schemas" schemaValue schemaName) finalName rest
      else mergeEntries u originalName o finalName rest
    else
      mergeEntries u originalName
        (addToComponents o "schemas" schemaValue schemaName) finalName rest

/-- `createSchema`: the truthy-cache fast path for an `undefined` schema,
then dereference-and-convert (errors rethrown unchanged), then the
collision merge loop, returning the new state and the final reference
string. -/
def createSchema (C : Collab) (fuel : Nat) (st : SHState) (name : String)
    (schema : Js) (u : String) : Except JsThrow (SHState × String) :=
  if (match lookupStr st.modelReferences name with
      | some r => r ≠ ""
      | none => false) && schema.isUndefined then
    .ok (st, (lookupStr st.modelReferences name).getD "")
  else
    match dereferenceAndConvert C fuel schema (.str name)
        (Js.mkObj [("name", .str name), ("schema", schema)]) with
    | .error t => .error t
    | .ok cv =>
      match jsGetE cv "schemas" with
      | .error t => .error t
      | .ok schemasVal =>
        match jsEntries schemasVal with
        | .error t => .error t
        | .ok entries =>
          let r := mergeEntries u name st.openAPI name entries
          .ok ({ st with openAPI := r.1 }, "#/components/schemas/" ++ r.2)

/-- `standardModel` of `__standardiseModels`: models with a truthy `schema`
field pass through unchanged; otherwise the schema of the first media-type
key under `content` is hoisted to the top and the media type recorded as
`contentType`. -/
def standardModel (model : Js) : Except JsThrow Js :=
  match jsGetE model "schema" with
  | .error t => .error t
  | .ok sv =>
    if sv.truthy then .ok model
    else
      match jsGetE model "content" with
      | .error t => .error t
      | .ok content =>
        match jsKeys content with
        | .error t => .error t
        | .ok keys =>
          match keys.head? with
          | some contentType =>
            match jsGetE (jsGet content contentType) "schema" with
            | .error t => .error t
            | .ok sv2 =>
              .ok (setField (setField model "contentType" (.str contentType)) "schema" sv2)
          | none =>
            match jsGetE (jsGet content "undefined") "schema" with
            | .error t => .error t
            | .ok sv2 =>
              .ok (setField (setField model "contentType" .undefined) "schema" sv2)

/-- `documentation?.X?.map(standardModel) || []` for one documentation
list: a nullish list degrades to the empty sequence, an array maps,
anything else has no `.map` and raises a `TypeError`. -/
def mapModels : Js → Except JsThrow (List Js)
  | .undefined => .ok []
  | .null => .ok []
  | .arr xs => xs.toList.mapM standardModel
  | _ => .error (.typeErr "map is not a function")

/-- `__standardiseModels`: normalise the three model sources, in order
documentation `models`, then documentation `modelsList`, then the
API-gateway models flattened over their keys (the constructor's `|| {}`
defaults a falsy gateway collection to the empty object). -/
def standardiseModels (documentation : Js) (apiGatewayModelsRaw : Js) :
    Except JsThrow (List Js) :=
  let apiGatewayModels :=
    if apiGatewayModelsRaw.truthy then apiGatewayModelsRaw else Js.mkObj []
  match mapModels (jsGet documentation "models") with
  | .error t => .error t
  | .ok standardisedModels =>
    match mapModels (jsGet documentation "modelsList") with
    | .error t => .error t
    | .ok standardisedModelsList =>
      match jsKeys apiGatewayModels with
      | .error t => .error t
      | .ok gwKeys =>
        match gwKeys.mapM (fun key => standardModel (jsGet apiGatewayModels key)) with
        | .error t => .error t
        | .ok standardisedGatewayModels =>
          .ok (standardisedModels ++ standardisedModelsList ++ standardisedGatewayModels)

/-- An OpenAPI document whose components/schemas containers are present and
whose registry is `reg` (the shape every merge theorem below quantifies
over). -/
def mkAPI (reg : JsFields) : Js :=
  Js.mkObj [("components", Js.mkObj [("schemas", .obj reg)])]

theorem addToComponents_mkAPI (reg : JsFields) (v : Js) (n : String) :
    addToComponents (mkAPI reg) "schemas" v n = mkAPI (setKey reg n v) := rfl

theorem existsInComponents_mkAPI (reg : JsFields) (n : String) :
    existsInComponents (mkAPI reg) n = ((jsLookup reg n).getD .undefined).truthy := rfl

theorem isTheSameSchema_mkAPI (reg : JsFields) (v : Js) (n : String) :
    isTheSameSchema (mkAPI reg) v n =
      isEqual v ((jsLookup reg n).getD .undefined) := rfl

theorem jsLookup_setKey_self :
    ∀ (fs : JsFields) (k : String) (v : Js), jsLookup (setKey fs k v) k = some v
  | .nil, k, v => by simp [setKey, jsLookup]
  | .cons k' w rest, k, v => by
    by_cases h : k' = k
    · simp [setKey, h, jsLookup]
    · simp [setKey, h, jsLookup, jsLookup_setKey_self rest k v]

theorem jsLookup_setKey_ne :
    ∀ (fs : JsFields) (k k' : String) (v : Js), k' ≠ k →
      jsLookup (setKey fs k v) k' = jsLookup fs k'
  | .nil, k, k', v, h => by
    simp only [setKey, jsLookup]
    rw [if_neg (fun (hh : k = k') => h hh.symm)]
  | .cons k'' w rest, k, k', v, h => by
    by_cases h2 : k'' = k
    · subst h2
      simp only [setKey, if_pos rfl, jsLookup]
      rw [if_neg (fun hh => h hh.symm), if_neg (fun hh => h hh.symm)]
    · simp only [setKey, if_neg h2, jsLookup]
      by_cases h3 : k'' = k'
      · rw [if_pos h3, if_pos h3]
      · rw [if_neg h3, if_neg h3, jsLookup_setKey_ne rest k k' v h]

theorem keys_setKey_of_lookup :
    ∀ (fs : JsFields) (k : String) (v w : Js), jsLookup fs k = some w →
      (setKey fs k v).keys = fs.keys
  | .nil, k, v, w, h => by simp [jsLookup] at h
  | .cons k' w' rest, k, v, w, h => by
    by_cases h2 : k' = k
    · simp [setKey, h2, JsFields.keys]
    · simp only [jsLookup, if_neg h2] at h
      simp [setKey, h2, JsFields.keys, keys_setKey_of_lookup rest k v w h]

theorem ne_append_dash (n u : String) : n ++ "-" ++ u ≠ n := by
  intro h
  have hl := congrArg String.length h
  rw [String.length_append, String.length_append] at hl
  have h1 : String.length "-" = 1 := rfl
  omega

theorem startsWith_name_xdash : startsWithStr "name" "x-" = false := by decide

theorem startsWith_schema_xdash : startsWithStr "schema" "x-" = false := by decide

/-- Straight-line run of `__dereferenceAndConvert`: bundling and
dereferencing succeed without the recovery pathology and conversion
succeeds, so the result is the overlay applied to the converted value. -/
theorem dereferenceAndConvert_resolved (C : Collab) (fuel : Nat)
    (schema bd d name cv model : Js) (ments : List (String × Js))
    (hb : C.bundle schema = .ok bd)
    (hd : C.dereference bd = .ok d)
    (hroot : rootSelfRef d = false)
    (hc : C.convert d name = .ok cv)
    (hm : jsEntries model = .ok ments) :
    dereferenceAndConvert C (fuel + 1) schema name model =
      overlayX name.toStr cv ments := by
  simp [dereferenceAndConvert, dereferenceSchema, hb, hd, hroot,
    convertAndOverlay, hc, hm]

/-- Straight-line run of `createSchema` (cache not hit because a schema is
supplied): the result is the merge loop over the converted entries. -/
theorem createSchema_resolved (C : Collab) (fuel : Nat) (st : SHState)
    (name : String) (schema bd d : Js) (u : String) (sfs : JsFields)
    (hschema : schema.isUndefined = false)
    (hb : C.bundle schema = .ok bd)
    (hd : C.dereference bd = .ok d)
    (hroot : rootSelfRef d = false)
    (hc : C.convert d (.str name) = .ok (.obj (.cons "schemas" (.obj sfs) .nil))) :
    createSchema C (fuel + 1) st name schema u =
      .ok ({ st with openAPI := (mergeEntries u name st.openAPI name sfs.toList).1 },
           "#/components/schemas/" ++ (mergeEntries u name st.openAPI name sfs.toList).2) := by
  have hdac := dereferenceAndConvert_resolved C fuel schema bd d (.str name)
      (.obj (.cons "schemas" (.obj sfs) .nil))
      (Js.mkObj [("name", .str name), ("schema", schema)])
      [("name", .str name), ("schema", schema)] hb hd hroot hc (by rfl)
  rw [show Js.toStr (.str name) = name from rfl] at hdac
  simp only [overlayX, startsWith_name_xdash, startsWith_schema_xdash,
    Bool.false_eq_true, if_false] at hdac
  simp [createSchema, hschema, hdac, jsGetE, jsGet, jsLookup, jsEntries]

/-- Straight-line run of one bulk-loop iteration for a two-field model
descriptor. -/
theorem processOneModel_resolved (C : Collab) (fuel : Nat) (st : SHState)
    (nm : String) (schema bd d cv : Js)
    (hb : C.bundle schema = .ok bd)
    (hd : C.dereference bd = .ok d)
    (hroot : rootSelfRef d = false)
    (hc : C.convert d (.str nm) = .ok cv) :
    processOneModel C (fuel + 1) st (Js.mkObj [("name", .str nm), ("schema", schema)]) =
      handleConverted st (.str nm) (Js.mkObj [("name", .str nm), ("schema", schema)]) cv := by
  have hdac := dereferenceAndConvert_resolved C fuel schema bd d (.str nm) cv
      (Js.mkObj [("name", .str nm), ("schema", schema)])
      [("name", .str nm), ("schema", schema)] hb hd hroot hc (by rfl)
  rw [show Js.toStr (.str nm) = nm from rfl] at hdac
  simp only [overlayX, startsWith_name_xdash, startsWith_schema_xdash,
    Bool.false_eq_true, if_false] at hdac
  simp only [Js.mkObj, JsFields.ofList] at hdac ⊢
  simp [processOneModel, jsGetE, jsGet, jsLookup, hdac]

/-- Evaluation of the bulk tail on a single-entry converted set. -/
theorem handleConverted_single (st : SHState) (nm en : String) (model sv : Js) :
    handleConverted st (.str nm) model (Js.mkObj [("schemas", Js.mkObj [(en, sv)])]) =
      .ok ⟨addToComponents st.openAPI "schemas" sv en,
           if nm = en then
             setKeyStr st.modelReferences en ("#/components/schemas/" ++ nm)
           else st.modelReferences⟩ := by
  by_cases h : nm = en
  · simp [handleConverted, jsGetE, jsGet, jsLookup, JsFields.toList, Js.mkObj,
      JsFields.ofList, strictEqStr, h, Js.toStr]
  · simp [handleConverted, jsGetE, jsGet, jsLookup, JsFields.toList, Js.mkObj,
      JsFields.ofList, strictEqStr, h, Js.toStr]

/-- A sample schema value. -/
def objA : Js := Js.mkObj [("a", Js.num 1)]

/-- A second, structurally different sample schema value. -/
def objB : Js := Js.mkObj [("a", Js.num 2)]

/-- Identity bundling/dereferencing with a fixed converter output (used for
concrete runs). -/
def convC (cv : Js) : Collab where
  bundle := fun j => .ok j
  dereference := fun j => .ok j
  convert := fun _ _ => .ok cv

/-- A collaborator whose converter emits a single `Foo ↦ objB` entry. -/
def convFooB : Collab := convC (Js.mkObj [("schemas", Js.mkObj [("Foo", objB)])])

/-- A registry that already maps `Foo` to `objA`. -/
def regA : JsFields := .cons "Foo" objA .nil

/-- A state whose registry is `regA`, with an empty cache. -/
def stA : SHState := ⟨mkAPI regA, []⟩

/-- A state with an empty OpenAPI document and cache. -/
def stEmpty : SHState := ⟨Js.mkObj [], []⟩

/-- C3: in `createSchema`, with an existing truthy registry entry `n ↦ a`
and a converted request to register `n ↦ b` with `b` structurally different
from `a` under the same originally-requested name `n`, the registry keeps
`n ↦ a` unchanged, gains the entry `n-<uuid> ↦ b`, and the returned
reference points at the suffixed name. -/
theorem C3_collision_on_primary (C : Collab) (fuel : Nat) (reg : JsFields)
    (mrefs : List (String × String)) (n u : String) (schema bd d a b : Js)
    (hschema : schema.isUndefined = false)
    (hb : C.bundle schema = .ok bd)
    (hd : C.dereference bd = .ok d)
    (hroot : rootSelfRef d = false)
    (hc : C.convert d (.str n) = .ok (Js.mkObj [("schemas", Js.mkObj [(n, b)])]))
    (ha : jsLookup reg n = some a)
    (hat : a.truthy = true)
    (hne : isEqual b a = false) :
    createSchema C (fuel + 1) ⟨mkAPI reg, mrefs⟩ n schema u =
      .ok (⟨mkAPI (setKey reg (n ++ "-" ++ u) b), mrefs⟩,
           "#/components/schemas/" ++ (n ++ "-" ++ u)) ∧
    jsLookup (setKey reg (n ++ "-" ++ u) b) n = some a ∧
    jsLookup (setKey reg (n ++ "-" ++ u) b) (n ++ "-" ++ u) = some b := by
  refine ⟨?_, ?_, jsLookup_setKey_self reg (n ++ "-" ++ u) b⟩
  · have h := createSchema_resolved C fuel ⟨mkAPI reg, mrefs⟩ n schema bd d u
      (.cons n b .nil) hschema hb hd hroot hc
    rw [h]
    simp only [JsFields.toList, mergeEntries, existsInComponents_mkAPI,
      isTheSameSchema_mkAPI, ha, Option.getD_some, hat, hne, if_pos rfl,
      addToComponents_mkAPI, if_true]
  · rw [jsLookup_setKey_ne reg (n ++ "-" ++ u) n b (Ne.symm (ne_append_dash n u)), ha]

/-- C3 witness: the collision-on-primary theorem at a concrete input. -/
theorem C3_collision_on_primary_witness :
    createSchema convFooB 1 stA "Foo" (Js.mkObj []) "u1" =
      .ok (⟨mkAPI (setKey regA ("Foo" ++ "-" ++ "u1") objB), []⟩,
           "#/components/schemas/" ++ ("Foo" ++ "-" ++ "u1")) ∧
    jsLookup (setKey regA ("Foo" ++ "-" ++ "u1") objB) "Foo" = some objA ∧
    jsLookup (setKey regA ("Foo" ++ "-" ++ "u1") objB) ("Foo" ++ "-" ++ "u1") = some objB :=
  C3_collision_on_primary convFooB 0 regA [] "Foo" "u1" (Js.mkObj [])
    (Js.mkObj []) (Js.mkObj []) objA objB (by decide) (by rfl) (by rfl)
    (by decide) (by rfl) (by decide) (by decide) (by decide)

/-- C9: when the registry maps `n` to a falsy value, `createSchema` treats
`n` as absent: it inserts the new value under `n`, overwriting the falsy
entry in place, with no renaming (the reference points at `n` itself). -/
theorem C9_falsy_entry_overwritten (C : Collab) (fuel : Nat) (reg : JsFields)
    (mrefs : List (String × String)) (n u : String) (schema bd d f v : Js)
    (hschema : schema.isUndefined = false)
    (hb : C.bundle schema = .ok bd)
    (hd : C.dereference bd = .ok d)
    (hroot : rootSelfRef d = false)
    (hc : C.convert d (.str n) = .ok (Js.mkObj [("schemas", Js.mkObj [(n, v)])]))
    (hf : jsLookup reg n = some f)
    (hft : f.truthy = false) :
    createSchema C (fuel + 1) ⟨mkAPI reg, mrefs⟩ n schema u =
      .ok (⟨mkAPI (setKey reg n v), mrefs⟩, "#/components/schemas/" ++ n) ∧
    jsLookup (setKey reg n v) n = some v := by
  refine ⟨?_, jsLookup_setKey_self reg n v⟩
  have h := createSchema_resolved C fuel ⟨mkAPI reg, mrefs⟩ n schema bd d u
    (.cons n v .nil) hschema hb hd hroot hc
  rw [h]
  simp only [JsFields.toList, mergeEntries, existsInComponents_mkAPI, hf,
    Option.getD_some, hft, if_false, addToComponents_mkAPI, Bool.false_eq_true]

/-- C9 witness: the falsy-entry theorem at a concrete input (`Foo ↦ null`
pre-existing). -/
theorem C9_falsy_entry_overwritten_witness :
    createSchema (convC (Js.mkObj [("schemas", Js.mkObj [("Foo", objB)])])) 1
      ⟨mkAPI (.cons "Foo" .null .nil), []⟩ "Foo" (Js.mkObj []) "u1" =
      .ok (⟨mkAPI (setKey (.cons "Foo" .null .nil) "Foo" objB), []⟩,
           "#/components/schemas/" ++ "Foo") ∧
    jsLookup (setKey (.cons "Foo" .null .nil) "Foo" objB) "Foo" = some objB :=
  C9_falsy_entry_overwritten (convC (Js.mkObj [("schemas", Js.mkObj [("Foo", objB)])]))
    0 (.cons "Foo" .null .nil) [] "Foo" "u1" (Js.mkObj []) (Js.mkObj []) (Js.mkObj [])
    .null objB (by decide) (by rfl) (by rfl) (by decide) (by rfl) (by decide) (by decide)

/-- C7 counterexample: merging the same converted set (`Foo ↦ objB`) twice
into a registry that already held a different `Foo` is not idempotent — each
call mints a fresh suffixed entry, so the registry after the second call
differs from the registry after the first. -/
theorem C7_counterexample :
    createSchema convFooB 1 stA "Foo" (Js.mkObj []) "u1" =
      .ok (⟨mkAPI (.cons "Foo" objA (.cons "Foo-u1" objB .nil)), []⟩,
           "#/components/schemas/Foo-u1") ∧
    createSchema convFooB 1 ⟨mkAPI (.cons "Foo" objA (.cons "Foo-u1" objB .nil)), []⟩
        "Foo" (Js.mkObj []) "u2" =
      .ok (⟨mkAPI (.cons "Foo" objA (.cons "Foo-u1" objB (.cons "Foo-u2" objB .nil))), []⟩,
           "#/components/schemas/Foo-u2") ∧
    mkAPI (.cons "Foo" objA (.cons "Foo-u1" objB (.cons "Foo-u2" objB .nil))) ≠
      mkAPI (.cons "Foo" objA (.cons "Foo-u1" objB .nil)) := by
  refine ⟨by decide, by decide, by decide⟩

/-- The merge loop is the identity when every entry deep-equals the current
truthy registry value of the same name. -/
theorem mergeEntries_noop (u orig : String) (reg : JsFields) (fn : String) :
    ∀ (es : List (String × Js)),
      (∀ p ∈ es, ∃ w, jsLookup reg p.1 = some w ∧ w.truthy = true ∧ isEqual p.2 w = true) →
      mergeEntries u orig (mkAPI reg) fn es = (mkAPI reg, fn)
  | [], _ => rfl
  | (n, v) :: rest, h => by
    obtain ⟨w, hw, hwt, heq⟩ := h (n, v) (List.mem_cons_self (n, v) rest)
    have hrest := mergeEntries_noop u orig reg fn rest
      (fun p hp => h p (List.mem_cons_of_mem (n, v) hp))
    simp [mergeEntries, existsInComponents_mkAPI, isTheSameSchema_mkAPI, hw,
      hwt, heq, hrest]

/-- C7 amended: re-merging a converted schema set is a no-op exactly when
every entry's value deep-equals the registry's current truthy value under
that name (the equal-value short-circuit); in particular immediately after
a first merge that performed no primary-collision renaming.  (As stated the
claim fails when the pre-existing registry conflicts on the primary name:
each repeated call then mints a fresh uuid entry — see the
counterexample.) -/
theorem C7_equal_value_noop (C : Collab) (fuel : Nat) (reg : JsFields)
    (mrefs : List (String × String)) (name u : String) (schema bd d : Js)
    (sfs : JsFields)
    (hschema : schema.isUndefined = false)
    (hb : C.bundle schema = .ok bd)
    (hd : C.dereference bd = .ok d)
    (hroot : rootSelfRef d = false)
    (hc : C.convert d (.str name) = .ok (.obj (.cons "schemas" (.obj sfs) .nil)))
    (hall : ∀ p ∈ sfs.toList, ∃ w, jsLookup reg p.1 = some w ∧ w.truthy = true ∧
      isEqual p.2 w = true) :
    createSchema C (fuel + 1) ⟨mkAPI reg, mrefs⟩ name schema u =
      .ok (⟨mkAPI reg, mrefs⟩, "#/components/schemas/" ++ name) := by
  have h := createSchema_resolved C fuel ⟨mkAPI reg, mrefs⟩ name schema bd d u
    sfs hschema hb hd hroot hc
  rw [h, mergeEntries_noop u name reg name sfs.toList hall]

/-- C7 witness: the equal-value no-op theorem at a concrete input (registry
already holds `Foo ↦ objB`, the converted set is the same `Foo ↦ objB`). -/
theorem C7_equal_value_noop_witness :
    createSchema convFooB 1 ⟨mkAPI (.cons "Foo" objB .nil), []⟩ "Foo" (Js.mkObj []) "u1" =
      .ok (⟨mkAPI (.cons "Foo" objB .nil), []⟩, "#/components/schemas/" ++ "Foo") :=
  C7_equal_value_noop convFooB 0 (.cons "Foo" objB .nil) [] "Foo" "u1"
    (Js.mkObj []) (Js.mkObj []) (Js.mkObj []) (.cons "Foo" objB .nil)
    (by decide) (by rfl) (by rfl) (by decide) (by rfl)
    (by
      intro p hp
      simp only [JsFields.toList, List.mem_singleton] at hp
      subst hp
      exact ⟨objB, by decide, by decide, by decide⟩)

/-- C1 counterexample: the bulk operation has no collision handling — with
`Foo ↦ objA` pre-existing and a model converting to a structurally
different `Foo ↦ objB`, `addModelsToOpenAPI` overwrites the pre-existing
entry in place and mints no uniquified name. -/
theorem C1_counterexample :
    addModelsToOpenAPI convFooB 1 stA
        [Js.mkObj [("name", .str "Foo"), ("schema", Js.mkObj [])]] =
      (⟨mkAPI (.cons "Foo" objB .nil), [("Foo", "#/components/schemas/Foo")]⟩, none) ∧
    isEqual objB objA = false := by
  refine ⟨by decide, by decide⟩

/-- C1 amended: in the bulk absorb-all-models operation every converted
entry is written unconditionally (`Object.assign` semantics): a pre-existing
entry under the same name is overwritten in place — last write wins — and no
uniquified name is ever minted on this path (the key set does not grow);
the never-overwrite/uniquify guarantee exists only in `createSchema`. -/
theorem C1_bulk_overwrites (C : Collab) (fuel : Nat) (reg : JsFields)
    (mrefs : List (String × String)) (nm en : String) (schema bd d sv old : Js)
    (hb : C.bundle schema = .ok bd)
    (hd : C.dereference bd = .ok d)
    (hroot : rootSelfRef d = false)
    (hc : C.convert d (.str nm) = .ok (Js.mkObj [("schemas", Js.mkObj [(en, sv)])]))
    (hold : jsLookup reg en = some old) :
    addModelsToOpenAPI C (fuel + 1) ⟨mkAPI reg, mrefs⟩
        [Js.mkObj [("name", .str nm), ("schema", schema)]] =
      (⟨mkAPI (setKey reg en sv),
        if nm = en then setKeyStr mrefs en ("#/components/schemas/" ++ nm) else mrefs⟩,
       none) ∧
    jsLookup (setKey reg en sv) en = some sv ∧
    (setKey reg en sv).keys = reg.keys := by
  refine ⟨?_, jsLookup_setKey_self reg en sv, keys_setKey_of_lookup reg en sv old hold⟩
  have hp := processOneModel_resolved C fuel ⟨mkAPI reg, mrefs⟩ nm schema bd d
    (Js.mkObj [("schemas", Js.mkObj [(en, sv)])]) hb hd hroot hc
  simp only [addModelsToOpenAPI, hp, handleConverted_single, addToComponents_mkAPI]

/-- C1 witness: the bulk-overwrite theorem at a concrete input. -/
theorem C1_bulk_overwrites_witness :
    addModelsToOpenAPI convFooB 1 ⟨mkAPI regA, []⟩
        [Js.mkObj [("name", .str "Foo"), ("schema", Js.mkObj [])]] =
      (⟨mkAPI (setKey regA "Foo" objB),
        if "Foo" = "Foo" then setKeyStr [] "Foo" ("#/components/schemas/" ++ "Foo") else []⟩,
       none) ∧
    jsLookup (setKey regA "Foo" objB) "Foo" = some objB ∧
    (setKey regA "Foo" objB).keys = regA.keys :=
  C1_bulk_overwrites convFooB 0 regA [] "Foo" "Foo" (Js.mkObj []) (Js.mkObj [])
    (Js.mkObj []) objB objA (by rfl) (by rfl) (by decide) (by rfl) (by decide)

/-- Cache lookup after a cache write of the same key. -/
theorem lookupStr_setKeyStr_self (fs : List (String × String)) (k v : String) :
    lookupStr (setKeyStr fs k v) k = some v := by
  induction fs with
  | nil => simp [setKeyStr, lookupStr]
  | cons p rest ih =>
    obtain ⟨k', w⟩ := p
    by_cases h : k' = k
    · simp [setKeyStr, h, lookupStr]
    · simp [setKeyStr, h, lookupStr, ih]

/-- C2 counterexample: a `createSchema` run from an empty state completes
with the primary entry's final name equal to the requested name `Foo` and
returns `#/components/schemas/Foo`, yet the model-reference cache stays
empty — `createSchema` never writes the cache. -/
theorem C2_counterexample :
    createSchema convFooB 1 stEmpty "Foo" (Js.mkObj []) "u1" =
      .ok (⟨Js.mkObj [("components", Js.mkObj [("schemas", Js.mkObj [("Foo", objB)])])], []⟩,
           "#/components/schemas/Foo") ∧
    lookupStr ([] : List (String × String)) "Foo" = none := by
  refine ⟨by decide, by rfl⟩

/-- C2 amended: the model-reference cache is written only by the bulk
operation (for every converted entry whose name strictly equals the model's
name); `createSchema` never writes it, and when the cache already maps `n`
to a truthy pointer, `createSchema(n, undefined)` returns that pointer with
the state unchanged and without consulting any collaborator. -/
theorem C2_cache_semantics :
    (∀ (C : Collab) (fuel : Nat) (st : SHState) (n r u : String),
      lookupStr st.modelReferences n = some r → r ≠ "" →
      createSchema C fuel st n .undefined u = .ok (st, r)) ∧
    (∀ (C : Collab) (fuel : Nat) (st : SHState) (n : String) (schema : Js) (u : String)
      (st' : SHState) (ref : String),
      createSchema C fuel st n schema u = .ok (st', ref) →
      st'.modelReferences = st.modelReferences) ∧
    (∀ (st : SHState) (nm : String) (model sv : Js),
      handleConverted st (.str nm) model (Js.mkObj [("schemas", Js.mkObj [(nm, sv)])]) =
        .ok ⟨addToComponents st.openAPI "schemas" sv nm,
             setKeyStr st.modelReferences nm ("#/components/schemas/" ++ nm)⟩ ∧
      lookupStr (setKeyStr st.modelReferences nm ("#/components/schemas/" ++ nm)) nm =
        some ("#/components/schemas/" ++ nm)) := by
  refine ⟨?_, ?_, ?_⟩
  · intro C fuel st n r u h hr
    simp [createSchema, h, hr, Js.isUndefined]
  · intro C fuel st n schema u st' ref h
    simp only [createSchema] at h
    split at h
    · injection h with h1
      injection h1 with ha hb
      rw [← ha]
    · split at h
      · simp at h
      · split at h
        · simp at h
        · split at h
          · simp at h
          · injection h with h1
            injection h1 with ha hb
            rw [← ha]
  · intro st nm model sv
    refine ⟨?_, lookupStr_setKeyStr_self st.modelReferences nm _⟩
    rw [handleConverted_single st nm nm model sv, if_pos rfl]

/-- C2 witness: the cache fast path of the amended theorem at a concrete
input (for every collaborator; here `convFooB`), and with fuel 5. -/
theorem C2_cache_semantics_witness :
    createSchema convFooB 5 ⟨Js.mkObj [], [("Foo", "#/components/schemas/Foo")]⟩
        "Foo" .undefined "u" =
      .ok (⟨Js.mkObj [], [("Foo", "#/components/schemas/Foo")]⟩,
           "#/components/schemas/Foo") :=
  C2_cache_semantics.1 convFooB 5 ⟨Js.mkObj [], [("Foo", "#/components/schemas/Foo")]⟩
    "Foo" "#/components/schemas/Foo" "u" (by rfl) (by decide)

/-- A collaborator whose converter emits `schemas` as an array. -/
def convArr : Collab := convC (Js.mkObj [("schemas", Js.mkArr [objB])])

/-- C4 counterexample: `createSchema` performs no shape check — a converted
output whose `schemas` field is an array does not throw; its single element
is merged into the registry under the index key `"0"`. -/
theorem C4_counterexample :
    createSchema convArr 1 stEmpty "Foo" (Js.mkObj []) "u1" =
      .ok (⟨Js.mkObj [("components", Js.mkObj [("schemas", Js.mkObj [("0", objB)])])], []⟩,
           "#/components/schemas/Foo") := by decide

/-- C4 amended: the conversion-shape check exists only in the bulk
operation: there, a converted output whose `schemas` field is not a plain
object (missing, array, null, or any non-object) raises the descriptive
error embedding the serialized model and the serialized converted output,
and the state is left unchanged (the model contributes no registry
entries).  `createSchema` has no such check (see the counterexample). -/
theorem C4_shape_check_bulk_only (C : Collab) (fuel : Nat) (st : SHState)
    (nm : String) (schema bd d cv : Js)
    (hb : C.bundle schema = .ok bd)
    (hd : C.dereference bd = .ok d)
    (hroot : rootSelfRef d = false)
    (hc : C.convert d (.str nm) = .ok cv)
    (hnn : cv ≠ .null) (hnu : cv ≠ .undefined)
    (hbad : ∀ fs, jsGet cv "schemas" ≠ .obj fs) :
    addModelsToOpenAPI C (fuel + 1) st
        [Js.mkObj [("name", .str nm), ("schema", schema)]] =
      (st, some (.err ⟨convertShapeMsg
        (Js.mkObj [("name", .str nm), ("schema", schema)]) cv, none⟩)) := by
  have hp := processOneModel_resolved C fuel st nm schema bd d cv hb hd hroot hc
  have hget : jsGetE cv "schemas" = .ok (jsGet cv "schemas") := by
    cases cv
    · exact absurd rfl hnu
    · exact absurd rfl hnn
    all_goals rfl
  have hhc : handleConverted st (.str nm)
      (Js.mkObj [("name", .str nm), ("schema", schema)]) cv =
      .error (.err ⟨convertShapeMsg
        (Js.mkObj [("name", .str nm), ("schema", schema)]) cv, none⟩) := by
    unfold handleConverted
    rw [hget]
    rcases hv : jsGet cv "schemas" with _ | _ | b | n2 | s | xs | fs
    case obj => exact absurd hv (hbad fs)
    all_goals rfl
  simp only [addModelsToOpenAPI, hp, hhc]

/-- A collaborator whose converter emits a bare string. -/
def convBad : Collab := convC (Js.str "bad")

/-- C4 witness: the bulk shape check at a concrete input (the converter
returns the string `"bad"`, whose `schemas` read is `undefined`). -/
theorem C4_shape_check_bulk_only_witness :
    addModelsToOpenAPI convBad 1 stEmpty
        [Js.mkObj [("name", .str "Foo"), ("schema", Js.mkObj [])]] =
      (stEmpty, some (.err ⟨convertShapeMsg
        (Js.mkObj [("name", .str "Foo"), ("schema", Js.mkObj [])]) (Js.str "bad"), none⟩)) :=
  C4_shape_check_bulk_only convBad 0 stEmpty "Foo" (Js.mkObj []) (Js.mkObj [])
    (Js.mkObj []) (Js.str "bad") (by rfl) (by rfl) (by decide) (by rfl)
    (by decide) (by decide) (fun fs h => by simp [jsGet, strIndex?, digitsToNat?] at h)

/-- The message the HTTP-marker classification fires on, if any: with a
sub-error list present, the first sub-error message containing the marker
(the main message is never consulted); otherwise the main message when it
contains the marker. -/
def firstHttpMsg (e : ErrObj) : Option String :=
  match e.errors with
  | some subs =>
    (subs.find? (fun s => containsSubstr s.message httpMarker)).map (fun s => s.message)
  | none => if containsSubstr e.message httpMarker then some e.message else none

/-- The sub-error scan of `__checkForHTTPErrorsAndThrow` throws the wrapped
error of the first marker-bearing sub-error and succeeds otherwise. -/
theorem forM_httpErrorCheck (model : Js) :
    ∀ (subs : List SubErr),
      List.forM subs (fun s => httpErrorCheck (.str s.message) model) =
        (match subs.find? (fun s => containsSubstr s.message httpMarker) with
         | some s => .error (.err ⟨httpErrorMsg model s.message, none⟩)
         | none => .ok ())
  | [] => rfl
  | s :: rest => by
    simp only [List.forM]
    by_cases h : containsSubstr s.message httpMarker
    · have hs : httpErrorCheck (.str s.message) model =
          .error (.err ⟨httpErrorMsg model s.message, none⟩) := by
        simp [httpErrorCheck, h]
      rw [hs]
      simp [List.find?, h, Bind.bind, Except.bind]
    · have hs : httpErrorCheck (.str s.message) model = .ok () := by
        simp [httpErrorCheck, h]
      rw [hs]
      simp only [Bind.bind, Except.bind]
      rw [forM_httpErrorCheck model rest]
      simp [List.find?, h]

/-- The HTTP classification throws the wrapped descriptive error when the
marker is found. -/
theorem checkHTTP_err_of_marker (e : ErrObj) (model : Js) (m : String)
    (hm : firstHttpMsg e = some m) :
    checkForHTTPErrorsAndThrow (.err e) model =
      .error (.err ⟨httpErrorMsg model m, none⟩) := by
  rcases herr : e.errors with _ | subs
  · simp only [firstHttpMsg, herr] at hm
    by_cases hc : containsSubstr e.message httpMarker
    · rw [if_pos hc] at hm
      injection hm with hm1
      subst hm1
      simp [checkForHTTPErrorsAndThrow, herr, httpErrorCheck, hc]
    · rw [if_neg hc] at hm; exact absurd hm (by simp)
  · simp only [firstHttpMsg, herr] at hm
    rcases hfind : subs.find? (fun s => containsSubstr s.message httpMarker) with _ | s
    · rw [hfind] at hm; simp at hm
    · rw [hfind] at hm
      simp only [Option.map_some'] at hm
      injection hm with hm1
      subst hm1
      simp [checkForHTTPErrorsAndThrow, herr, forM_httpErrorCheck, hfind]

/-- The HTTP classification succeeds when no marker is found. -/
theorem checkHTTP_ok_of_no_marker (e : ErrObj) (model : Js)
    (hm : firstHttpMsg e = none) :
    checkForHTTPErrorsAndThrow (.err e) model = .ok () := by
  rcases herr : e.errors with _ | subs
  · simp only [firstHttpMsg, herr] at hm
    by_cases hc : containsSubstr e.message httpMarker
    · rw [if_pos hc] at hm; exact absurd hm (by simp)
    · simp [checkForHTTPErrorsAndThrow, herr, httpErrorCheck, hc]
  · simp only [firstHttpMsg, herr] at hm
    rcases hfind : subs.find? (fun s => containsSubstr s.message httpMarker) with _ | s
    · simp [checkForHTTPErrorsAndThrow, herr, forM_httpErrorCheck, hfind]
    · rw [hfind] at hm; simp at hm

/-- C5: when resolution of a model's schema fails with an `Error` carrying
message `e.message` (and possibly a sub-error list), the failure is
classified exactly as the source does: a marker-bearing message (first
marker-bearing sub-error message when a sub-error list is present) raises
the wrapped descriptive error naming the model; the exact missing-path
message rethrows the original error; every other failure falls back to
converting the original unresolved document. -/
theorem C5_resolution_error_classification (C : Collab) (fuel : Nat)
    (schema name model : Js) (e : ErrObj)
    (hds : dereferenceSchema C fuel schema = .error (.err e)) :
    (∀ m, firstHttpMsg e = some m →
      dereferenceAndConvert C fuel schema name model =
        .error (.err ⟨httpErrorMsg model m, none⟩)) ∧
    (firstHttpMsg e = none → e.message = missingPathMsg →
      dereferenceAndConvert C fuel schema name model = .error (.err e)) ∧
    (firstHttpMsg e = none → e.message ≠ missingPathMsg →
      dereferenceAndConvert C fuel schema name model =
        convertAndOverlay C schema name model) := by
  have hmain : dereferenceAndConvert C fuel schema name model =
      (match classifyResolutionError (.err e) model with
       | .error t' => .error t'
       | .ok _ => convertAndOverlay C schema name model) := by
    simp only [dereferenceAndConvert, hds]
  refine ⟨?_, ?_, ?_⟩
  · intro m hm
    rw [hmain]
    simp [classifyResolutionError, checkHTTP_err_of_marker e model m hm]
  · intro hm hmsg
    rw [hmain]
    simp [classifyResolutionError, checkHTTP_ok_of_no_marker e model hm,
      checkForMissingPathAndThrow, JsThrow.messageVal, hmsg]
  · intro hm hmsg
    rw [hmain]
    simp [classifyResolutionError, checkHTTP_ok_of_no_marker e model hm,
      checkForMissingPathAndThrow, JsThrow.messageVal, hmsg]

/-- A collaborator whose bundling step rejects with a fixed thrown value. -/
def bundleFail (t : JsThrow) : Collab where
  bundle := fun _ => .error t
  dereference := fun j => .ok j
  convert := fun _ _ => .ok (Js.mkObj [])

/-- C5 witness: the classification theorem at a concrete input — a bundle
failure with message `"HTTP ERROR 404"` raises the wrapped descriptive
error. -/
theorem C5_resolution_error_classification_witness :
    dereferenceAndConvert (bundleFail (.err ⟨"HTTP ERROR 404", none⟩)) 1
        (Js.mkObj []) (.str "M") (Js.mkObj [("name", .str "M")]) =
      .error (.err ⟨httpErrorMsg (Js.mkObj [("name", .str "M")]) "HTTP ERROR 404", none⟩) :=
  (C5_resolution_error_classification (bundleFail (.err ⟨"HTTP ERROR 404", none⟩)) 1
    (Js.mkObj []) (.str "M") (Js.mkObj [("name", .str "M")]) ⟨"HTTP ERROR 404", none⟩
    (by decide)).1 "HTTP ERROR 404" (by decide)

/-- A deleted key reads back as absent. -/
theorem jsLookup_removeKey_self :
    ∀ (fs : JsFields) (k : String), jsLookup (removeKey fs k) k = none
  | .nil, _ => rfl
  | .cons k' v fs, k => by
    by_cases h : k' = k
    · simp [removeKey, h, jsLookup_removeKey_self fs k]
    · simp [removeKey, h, jsLookup, jsLookup_removeKey_self fs k]

/-- C6: when dereferencing yields a bare root self-reference
(`$ref === "#"`) and the `definitions` fragment named by the last segment
of the bundled document's top-level `$ref` resolves cleanly (the
collaborators return the patched document unchanged on the re-run),
`__dereferenceSchema` terminates after exactly one recovery pass and
returns the fragment's properties shallow-merged onto the result with the
dangling `$ref` key removed — no `$ref` remains at the root. -/
theorem C6_recovery_single_pass (C : Collab) (fuel : Nat) (schema bd : Js)
    (dfs0 dfs : JsFields) (oldRef : String) (frag : Js)
    (hb : C.bundle schema = .ok bd)
    (hd : C.dereference bd = .ok (.obj dfs0))
    (hroot : rootSelfRef (.obj dfs0) = true)
    (href : jsGetE bd "$ref" = .ok (.str oldRef))
    (hdefs : jsGet (.obj dfs0) "definitions" = .obj dfs)
    (hfrag : jsLookup dfs (lastSegment oldRef) = some frag)
    (hb2 : C.bundle (removeField (assignFields (.obj dfs0) (jsSpread frag)) "$ref") =
      .ok (removeField (assignFields (.obj dfs0) (jsSpread frag)) "$ref"))
    (hd2 : C.dereference (removeField (assignFields (.obj dfs0) (jsSpread frag)) "$ref") =
      .ok (removeField (assignFields (.obj dfs0) (jsSpread frag)) "$ref")) :
    dereferenceSchema C (fuel + 1 + 1) schema =
      .ok (removeField (assignFields (.obj dfs0) (jsSpread frag)) "$ref", 1) ∧
    jsGet (removeField (assignFields (.obj dfs0) (jsSpread frag)) "$ref") "$ref" = .undefined := by
  have hnorf : jsGet (removeField (assignFields (.obj dfs0) (jsSpread frag)) "$ref") "$ref" =
      .undefined := by
    simp [assignFields, removeField, jsGet, jsLookup_removeKey_self]
  refine ⟨?_, hnorf⟩
  have hroot2 : rootSelfRef (removeField (assignFields (.obj dfs0) (jsSpread frag)) "$ref") =
      false := by
    simp [rootSelfRef, hnorf]
  have hsecond : dereferenceSchema C (fuel + 1)
      (removeField (assignFields (.obj dfs0) (jsSpread frag)) "$ref") =
      .ok (removeField (assignFields (.obj dfs0) (jsSpread frag)) "$ref", 0) := by
    simp [dereferenceSchema, hb2, hd2, hroot2]
  have hderefs : jsGetE (jsGet (.obj dfs0) "definitions") (lastSegment oldRef) = .ok frag := by
    rw [hdefs]
    simp [jsGetE, jsGet, hfrag]
  simp [dereferenceSchema, hb, hd, hroot, href, hderefs, hb2, hd2, hroot2]

/-- The fragment the C6 witness recovers. -/
def c6frag : Js := Js.mkObj [("type", .str "object")]

/-- The bundled document of the C6 witness, with a top-level `$ref`. -/
def c6bundled : Js := Js.mkObj [("$ref", .str "#/definitions/Foo")]

/-- The malformed dereference output of the C6 witness. -/
def c6selfRef : Js := Js.mkObj [("$ref", .str "#"),
  ("definitions", Js.mkObj [("Foo", c6frag)])]

/-- The input document of the C6 witness. -/
def c6schema : Js := Js.mkObj [("src", .str "file.json")]

/-- A collaborator exhibiting the malformed-dereference pathology once. -/
def c6Collab : Collab where
  bundle := fun j => if j = c6schema then .ok c6bundled else .ok j
  dereference := fun j => if j = c6bundled then .ok c6selfRef else .ok j
  convert := fun _ _ => .ok (Js.mkObj [])

/-- C6 witness: the recovery theorem at a concrete input. -/
theorem C6_recovery_single_pass_witness :
    dereferenceSchema c6Collab 2 c6schema =
      .ok (removeField (assignFields c6selfRef (jsSpread c6frag)) "$ref", 1) ∧
    jsGet (removeField (assignFields c6selfRef (jsSpread c6frag)) "$ref") "$ref" = .undefined :=
  C6_recovery_single_pass c6Collab 0 c6schema c6bundled
    (JsFields.ofList [("$ref", .str "#"), ("definitions", Js.mkObj [("Foo", c6frag)])])
    (JsFields.ofList [("Foo", c6frag)]) "#/definitions/Foo" c6frag
    (by decide) (by decide) (by decide) (by decide) (by decide) (by decide)
    (by decide) (by decide)

/-- The model of the C8 counterexample: it has a `schema` key (value
`false`, which is falsy) alongside a `content` block. -/
def badModel : Js := Js.mkObj [("name", .str "M"), ("schema", .bool false),
  ("content", Js.mkObj [("application/json", Js.mkObj [("schema", objB)])])]

/-- C8 counterexample: a raw entry that exposes a `schema` field (with the
falsy value `false`) is not passed through unchanged — the normalizer takes
the `content` branch and rewrites it (truthiness, not presence, decides the
branch). -/
theorem C8_counterexample :
    standardiseModels (Js.mkObj [("models", Js.mkArr [badModel])]) .undefined =
      .ok [Js.mkObj [("name", .str "M"), ("schema", objB),
        ("content", Js.mkObj [("application/json", Js.mkObj [("schema", objB)])]),
        ("contentType", .str "application/json")]] ∧
    Js.mkObj [("name", .str "M"), ("schema", objB),
        ("content", Js.mkObj [("application/json", Js.mkObj [("schema", objB)])]),
        ("contentType", .str "application/json")] ≠ badModel := by
  refine ⟨by decide, by decide⟩

/-- C8 amended: the normalized sequence is documentation `models` entries,
then `modelsList` entries, then API-gateway entries flattened across the
gateway keys, in that order; an entry whose `schema` field is truthy (not
merely present) passes through unchanged; any other entry has the schema of
its first media-type key under `content` hoisted to the top with that media
type recorded as `contentType`; absent collections contribute empty
subsequences and raise no failure. -/
theorem C8_normalizer :
    (∀ (model sv : Js), jsGetE model "schema" = .ok sv → sv.truthy = true →
      standardModel model = .ok model) ∧
    (∀ (model sv : Js) (ct : String) (cv : Js) (cfs : JsFields) (sv2 : Js),
      jsGetE model "schema" = .ok sv → sv.truthy = false →
      jsGetE model "content" = .ok (.obj (.cons ct cv cfs)) →
      jsGetE cv "schema" = .ok sv2 →
      standardModel model =
        .ok (setField (setField model "contentType" (.str ct)) "schema" sv2)) ∧
    (∀ (xs ys : JsList) (gfs : JsFields) (sx sy sg : List Js),
      xs.toList.mapM standardModel = .ok sx →
      ys.toList.mapM standardModel = .ok sy →
      gfs.keys.mapM (fun key => standardModel (jsGet (.obj gfs) key)) = .ok sg →
      standardiseModels
        (Js.mkObj [("models", .arr xs), ("modelsList", .arr ys)]) (.obj gfs) =
        .ok (sx ++ sy ++ sg)) ∧
    (standardiseModels .undefined .undefined = .ok []) := by
  refine ⟨?_, ?_, ?_, by rfl⟩
  · intro model sv h1 h2
    simp [standardModel, h1, h2]
  · intro model sv ct cv cfs sv2 h1 h2 h3 h4
    simp only [standardModel, h1, h2, h3, Bool.false_eq_true, if_false]
    have hget : jsGet (Js.obj (.cons ct cv cfs)) ct = cv := by
      simp [jsGet, jsLookup]
    simp [jsKeys, JsFields.keys, hget, h4]
  · intro xs ys gfs sx sy sg hx hy hg
    simp only [standardiseModels, Js.mkObj, JsFields.ofList, jsGet, jsLookup,
      Js.truthy]
    simp only [List.mapM, jsGet] at hx hy hg
    simp [mapModels, hx, hy, jsKeys, hg, List.mapM]

/-- C8 witness: the truthy pass-through clause of the normalizer theorem at
a concrete input. -/
theorem C8_normalizer_witness :
    standardModel (Js.mkObj [("name", .str "N"), ("schema", objA)]) =
      .ok (Js.mkObj [("name", .str "N"), ("schema", objA)]) :=
  C8_normalizer.1 (Js.mkObj [("name", .str "N"), ("schema", objA)]) objA
    (by rfl) (by decide)

/-- A read `base.k` only ever throws an engine `TypeError` (never a bare
non-`Error` value). -/
theorem jsGetE_typeErr (v : Js) (k : String) (t : JsThrow)
    (h : jsGetE v k = .error t) : ∃ d, t = .typeErr d := by
  cases v <;> simp [jsGetE] at h
  · exact ⟨_, h.symm⟩
  · exact ⟨_, h.symm⟩

/-- The bulk tail never throws a bare non-`Error` value: its errors are the
`TypeError` from the `schemas` read or the descriptive shape error. -/
theorem handleConverted_no_val (st : SHState) (mn model cv w : Js) :
    handleConverted st mn model cv ≠ .error (.val w) := by
  intro h
  unfold handleConverted at h
  cases cv <;> simp [jsGetE] at h <;> split at h <;> simp_all

/-- A collaborator whose converter throws the non-`Error` value `null`. -/
def throwNullC : Collab where
  bundle := fun j => .ok j
  dereference := fun j => .ok j
  convert := fun _ _ => .error (.val .null)

/-- C10 counterexample: a non-`Error` rejection value of `null` is
substituted as the converted result, but the failure then surfaces as a
bare `TypeError` from reading `.schemas` of `null` — not as the
conversion-shape error embedding the value. -/
theorem C10_counterexample :
    addModelsToOpenAPI throwNullC 1 stEmpty
        [Js.mkObj [("name", .str "Foo"), ("schema", Js.mkObj [])]] =
      (stEmpty, some (.typeErr "Cannot read properties of null (reading 'schemas')")) := by
  decide

/-- C10 amended: a non-`Error` rejection of the dereference-and-convert
step is never propagated: it is substituted as the converted result and
processing continues to the shape check, so the failure surfaces (if at
all) as the conversion-shape error embedding that value — or, for a
nullish rejection value, as the bare `TypeError` from reading its
`schemas` field — never as the original rejection. -/
theorem C10_nonerror_rejection :
    (∀ (C : Collab) (fuel : Nat) (st : SHState) (nm : String) (schema v : Js),
      dereferenceAndConvert C fuel schema (.str nm)
          (Js.mkObj [("name", .str nm), ("schema", schema)]) = .error (.val v) →
      processOneModel C fuel st (Js.mkObj [("name", .str nm), ("schema", schema)]) =
        handleConverted st (.str nm) (Js.mkObj [("name", .str nm), ("schema", schema)]) v) ∧
    (∀ (C : Collab) (fuel : Nat) (st : SHState) (model w : Js),
      processOneModel C fuel st model ≠ .error (.val w)) ∧
    (∀ (st : SHState) (mn model : Js),
      handleConverted st mn model .null =
        .error (.typeErr "Cannot read properties of null (reading 'schemas')")) := by
  refine ⟨?_, ?_, fun st mn model => rfl⟩
  · intro C fuel st nm schema v hdac
    simp only [Js.mkObj, JsFields.ofList] at hdac ⊢
    simp [processOneModel, jsGetE, jsGet, jsLookup, hdac]
  · intro C fuel st model w h
    simp only [processOneModel] at h
    split at h
    · rename_i t heq
      obtain ⟨d, rfl⟩ := jsGetE_typeErr model "name" t heq
      simp at h
    · split at h
      · rename_i t heq
        obtain ⟨d, rfl⟩ := jsGetE_typeErr model "schema" t heq
        simp at h
      · split at h
        · exact handleConverted_no_val _ _ _ _ _ h
        · exact handleConverted_no_val _ _ _ _ _ h
        · rename_i t hne heq
          injection h with h1
          exact hne w h1

/-- C10 witness: the substitution clause of the non-`Error` rejection
theorem at a concrete input (the converter throws `null`). -/
theorem C10_nonerror_rejection_witness :
    processOneModel throwNullC 1 stEmpty
        (Js.mkObj [("name", .str "Foo"), ("schema", Js.mkObj [])]) =
      handleConverted stEmpty (.str "Foo")
        (Js.mkObj [("name", .str "Foo"), ("schema", Js.mkObj [])]) .null :=
  C10_nonerror_rejection.1 throwNullC 1 stEmpty "Foo" (Js.mkObj []) .null (by decide)
